import Mathlib

/-!
Verification development for the ensemble histogram-matching restraint engine
(`src/cpp/ensemblepotential.cpp` / `ensemblepotential.h`).

The C++ code is shallowly embedded: `double` and `real` are modelled by `ℝ`,
`std::vector<double>` by `List ℝ`, the window history of
`std::unique_ptr<Matrix<double>>` (each a 1 x nBins row) by `List (List ℝ)`,
and the externally supplied ensemble all-reduce functor by an explicit
function argument `reduceFn : List ℝ → List ℝ` whose result is what the
reduce call writes into its receive buffer.  Each call of
`EnsembleHarmonic::callback` is a state transition; the number of reduce
invocations and the send/receive pair of each one are logged explicitly in
the transition output so that temporal claims about the reduction port can
be stated.
-/

/-- Three-component vector modelling `gmx::Vector`. -/
structure Vec3 where
  x : ℝ
  y : ℝ
  z : ℝ

instance : Sub Vec3 := ⟨fun a b => ⟨a.x - b.x, a.y - b.y, a.z - b.z⟩⟩

instance : SMul ℝ Vec3 := ⟨fun c a => ⟨c * a.x, c * a.y, c * a.z⟩⟩

/-- Euclidean dot product, modelling `dot(rdiff, rdiff)`. -/
def dotV (a b : Vec3) : ℝ := a.x * b.x + a.y * b.y + a.z * b.z

/-- Euclidean length, modelling both `sqrt(dot(rdiff, rdiff))` and
`norm(rdiff)` (which agree for real vectors). -/
noncomputable def vnorm (a : Vec3) : ℝ := Real.sqrt (dotV a a)

/-- Output of `EnsembleHarmonic::calculate`, modelling
`gmx::PotentialPointData` (value-initialized: zero force, zero energy;
the code never assigns `energy`). -/
structure PotentialPointData where
  force : Vec3
  energy : ℝ

/-- Parameter record passed to the `EnsembleHarmonic` constructor
(`ensemblepotential.cpp` lines 79-108), field names after the constructor
arguments. -/
structure EnsembleParams where
  nbins : ℕ
  binWidth : ℝ
  min_dist : ℝ
  max_dist : ℝ
  experimental : List ℝ
  nsamples : ℕ
  sample_period : ℝ
  nwindows : ℕ
  window_update_period : ℝ
  K : ℝ
  sigma : ℝ

/-- The mutable state of one `EnsembleHarmonic` restraint instance
(private members of the class in `ensemblepotential.h`). -/
structure EnsembleHarmonic where
  nBins : ℕ
  binWidth : ℝ
  minDist : ℝ
  maxDist : ℝ
  /-- `histogram_`: the smoothed working histogram used by `calculate`. -/
  histogram : List ℝ
  experimental : List ℝ
  nSamples : ℕ
  currentSample : ℕ
  samplePeriod : ℝ
  nextSampleTime : ℝ
  /-- `distanceSamples_`: fixed-size sample buffer of length `nSamples`. -/
  distanceSamples : List ℝ
  nWindows : ℕ
  currentWindow : ℕ
  windowUpdatePeriod : ℝ
  nextWindowUpdateTime : ℝ
  /-- `windows_`: history of per-window histograms (each of length `nBins`). -/
  windows : List (List ℝ)
  k : ℝ
  sigma : ℝ

/-- The `EnsembleHarmonic` constructor (`ensemblepotential.cpp` lines
79-108).  It unconditionally initializes every member from the parameter
record; the C++ constructor body is empty and contains no validation and no
failure path, so the model is a total function. -/
def mkEnsembleHarmonic (p : EnsembleParams) : EnsembleHarmonic :=
  { nBins := p.nbins
    binWidth := p.binWidth
    minDist := p.min_dist
    maxDist := p.max_dist
    histogram := List.replicate p.nbins 0
    experimental := p.experimental
    nSamples := p.nsamples
    currentSample := 0
    samplePeriod := p.sample_period
    nextSampleTime := p.sample_period
    distanceSamples := List.replicate p.nsamples 0
    nWindows := p.nwindows
    currentWindow := 0
    windowUpdatePeriod := p.window_update_period
    nextWindowUpdateTime := p.window_update_period
    windows := []
    k := p.K
    sigma := p.sigma }

/-- `BlurToGrid::operator()` (`ensemblepotential.cpp` lines 44-65): for each
bin `i` of the target grid, accumulate over all sampled distances the value
`normalization * exp(-(i*binWidth - d)^2 / (2*sigma^2))` and assign it to the
bin, overwriting prior contents.  The C++ reads only `grid->size()` from the
prior grid, so the model takes the prior grid as a parameter and uses only
its length.  `low` mirrors the unused `low_` member. -/
noncomputable def blurToGrid (low binWidth sigma : ℝ) (distances grid : List ℝ) :
    List ℝ :=
  (List.range grid.length).map fun (i : ℕ) =>
    (distances.map fun d =>
      1 / (distances.length * Real.sqrt (2 * Real.pi * sigma * sigma)) *
        Real.exp (-(((i : ℝ) * binWidth - d) * ((i : ℝ) * binWidth - d)) *
          (1 / (2 * sigma * sigma)))).sum

/-- Recomputation of the working histogram from the window list
(`ensemblepotential.cpp` lines 205-216): every bin is zeroed, then for each
window `w` currently held, `(w[i] - experimental[i]) / windows.size()` is
added to bin `i`. -/
noncomputable def recomputeWorking (nBins : ℕ) (experimental : List ℝ)
    (windows : List (List ℝ)) : List ℝ :=
  (List.range nBins).map fun i =>
    (windows.map fun w =>
      (w.getD i 0 - experimental.getD i 0) / (windows.length : ℝ)).sum

/-- The sampling block of `EnsembleHarmonic::callback` (lines 136-144):
if `t >= nextSampleTime_`, store the current distance at the fill cursor,
advance the cursor by one and `nextSampleTime_` by one `samplePeriod_`.
Returns the updated state and the number of samples recorded (0 or 1). -/
noncomputable def sampleStep (s : EnsembleHarmonic) (R t : ℝ) :
    EnsembleHarmonic × ℕ :=
  if s.nextSampleTime ≤ t then
    ({ s with
        distanceSamples := s.distanceSamples.set s.currentSample R
        currentSample := s.currentSample + 1
        nextSampleTime := s.nextSampleTime + s.samplePeriod }, 1)
  else (s, 0)

/-- The window-update block of `EnsembleHarmonic::callback` (lines 153-231):
if `t >= nextWindowUpdateTime_`, blur the sample buffer into a fresh raw
histogram, call the ensemble reduce (whose result lands in the recycled
receive buffer `temp_window`), append `new_window` (the raw send buffer) to
the window list — evicting the oldest window first when the list is at
capacity — recompute the working histogram, advance the window deadline by
one period, advance the window counter, and reset the sample cursor and
sample deadline.  Returns the updated state together with the log of reduce
calls made, each as the pair (send buffer contents, receive buffer result). -/
noncomputable def windowStep (reduceFn : List ℝ → List ℝ)
    (s : EnsembleHarmonic) (t : ℝ) :
    EnsembleHarmonic × List (List ℝ × List ℝ) :=
  if s.nextWindowUpdateTime ≤ t then
    let newWindow :=
      blurToGrid 0 s.binWidth s.sigma s.distanceSamples
        (List.replicate s.nBins 0)
    let reduced := reduceFn newWindow
    let kept :=
      if s.windows.length = s.nWindows then s.windows.drop 1 else s.windows
    let updatedWindows := kept ++ [newWindow]
    ({ s with
        windows := updatedWindows
        histogram := recomputeWorking s.nBins s.experimental updatedWindows
        nextWindowUpdateTime := s.nextWindowUpdateTime + s.windowUpdatePeriod
        currentWindow := s.currentWindow + 1
        currentSample := 0
        nextSampleTime := t + s.samplePeriod },
      [(newWindow, reduced)])
  else (s, [])

/-- Result of one `callback` invocation: the new state, the number of
samples recorded into the sample buffer, and the log of ensemble reduce
calls made (send contents, receive result). -/
structure CallbackOut where
  state : EnsembleHarmonic
  samplesRecorded : ℕ
  reduceLog : List (List ℝ × List ℝ)

/-- `EnsembleHarmonic::callback` (lines 126-233): compute the current
separation, run the sampling block, then the window-update block. -/
noncomputable def callback (reduceFn : List ℝ → List ℝ)
    (s : EnsembleHarmonic) (v v0 : Vec3) (t : ℝ) : CallbackOut :=
  let R := Real.sqrt (dotV (v - v0) (v - v0))
  let s1 := sampleStep s R t
  let s2 := windowStep reduceFn s1.1 t
  ⟨s2.1, s1.2, s2.2⟩

/-- `EnsembleHarmonic::calculate` (lines 235-290).  With `R` the current
separation: outside the flat-bottom range the force magnitude is harmonic in
the boundary overshoot; inside, it is the histogram-weighted Gaussian sum;
the force vector is the magnitude divided by `norm(rdiff)` times `rdiff`.
When `R == 0` the value-initialized (zero) output is returned. -/
noncomputable def calculate (s : EnsembleHarmonic) (v v0 : Vec3) (t : ℝ) :
    PotentialPointData :=
  let rdiff := v - v0
  let R := Real.sqrt (dotV rdiff rdiff)
  if R ≠ 0 then
    let f :=
      if R > s.maxDist then s.k * (s.maxDist - R)
      else if R < s.minDist then -s.k * (s.minDist - R)
      else
        -s.k *
          ((List.range s.histogram.length).map fun n =>
            s.histogram.getD n 0 * ((n : ℝ) * s.binWidth - R) /
                (Real.sqrt (2 * Real.pi) * s.sigma ^ 3) *
              Real.exp
                (-0.5 * (((n : ℝ) * s.binWidth - R) / s.sigma) ^ 2)).sum
    { force := (f / vnorm rdiff) • rdiff, energy := 0 }
  else { force := ⟨0, 0, 0⟩, energy := 0 }

/-- One input to `callback` for multi-step runs. -/
structure CallbackInput where
  v : Vec3
  v0 : Vec3
  t : ℝ
  reduceFn : List ℝ → List ℝ

/-- Iterated `callback` over a list of inputs. -/
noncomputable def runCallbacks (s : EnsembleHarmonic) :
    List CallbackInput → EnsembleHarmonic
  | [] => s
  | i :: rest => runCallbacks (callback i.reduceFn s i.v i.v0 i.t).state rest

/-- Total number of ensemble reduce invocations over a run. -/
noncomputable def runReduceCount (s : EnsembleHarmonic) :
    List CallbackInput → ℕ
  | [] => 0
  | i :: rest =>
    (callback i.reduceFn s i.v i.v0 i.t).reduceLog.length +
      runReduceCount (callback i.reduceFn s i.v i.v0 i.t).state rest

/-- Modelled from the spec: the Gaussian kernel `Gaussian(x; sigma)` used in
the force-law sentence of the specification. -/
noncomputable def specGaussian (x sigma : ℝ) : ℝ :=
  Real.exp (-(x ^ 2) / (2 * sigma ^ 2)) / (Real.sqrt (2 * Real.pi) * sigma)

/-- Modelled from the spec: signed force magnitude along the separation axis
as the specification states it: `k*(maxDist - R)` beyond `maxDist`,
`-k*(minDist - R)` below `minDist`, and otherwise the histogram-weighted
kernel-derivative sum. -/
noncomputable def specForceMag (s : EnsembleHarmonic) (R : ℝ) : ℝ :=
  if R > s.maxDist then s.k * (s.maxDist - R)
  else if R < s.minDist then -s.k * (s.minDist - R)
  else
    -s.k *
      ((List.range s.histogram.length).map fun n =>
        s.histogram.getD n 0 * (((n : ℝ) * s.binWidth - R) / s.sigma ^ 2) *
          specGaussian ((n : ℝ) * s.binWidth - R) s.sigma).sum

/-- Modelled from the spec: an invalid configuration in the sense of the
validation sentence: mismatched experimental length, non-positive sample or
window period, or inconsistent window/sample periods. -/
def specInvalidConfig (p : EnsembleParams) : Prop :=
  p.experimental.length ≠ p.nbins ∨ p.sample_period ≤ 0 ∨
    p.window_update_period ≤ 0 ∨
    p.window_update_period ≠ (p.nsamples : ℝ) * p.sample_period

theorem sampleStep_preserves (s : EnsembleHarmonic) (R t : ℝ) :
    (sampleStep s R t).1.nextWindowUpdateTime = s.nextWindowUpdateTime ∧
    (sampleStep s R t).1.windows = s.windows ∧
    (sampleStep s R t).1.nBins = s.nBins ∧
    (sampleStep s R t).1.experimental = s.experimental ∧
    (sampleStep s R t).1.samplePeriod = s.samplePeriod ∧
    (sampleStep s R t).1.windowUpdatePeriod = s.windowUpdatePeriod ∧
    (sampleStep s R t).1.currentWindow = s.currentWindow ∧
    (sampleStep s R t).1.nWindows = s.nWindows ∧
    (sampleStep s R t).1.histogram = s.histogram ∧
    (sampleStep s R t).1.binWidth = s.binWidth ∧
    (sampleStep s R t).1.sigma = s.sigma := by
  unfold sampleStep
  split <;> simp

/-- Claim C2 (amended): after a window update triggered by `callback` at
time `t`, the next window-update deadline is the previous deadline plus
`windowUpdatePeriod` (an accumulated multiple of the period), while it is
the next sample time that is re-anchored to `t + samplePeriod`. -/
theorem window_deadline_accumulated
    (reduceFn : List ℝ → List ℝ) (s : EnsembleHarmonic) (v v0 : Vec3)
    (t : ℝ) (h : s.nextWindowUpdateTime ≤ t) :
    (callback reduceFn s v v0 t).state.nextWindowUpdateTime
        = s.nextWindowUpdateTime + s.windowUpdatePeriod ∧
    (callback reduceFn s v v0 t).state.nextSampleTime = t + s.samplePeriod := by
  obtain ⟨h1, -, -, -, h5, h6, -⟩ :=
    sampleStep_preserves s (Real.sqrt (dotV (v - v0) (v - v0))) t
  unfold callback windowStep
  simp only [h1, h5, h6]
  rw [if_pos h]
  simp [h1, h5, h6]

/-- Claim C2 (counterexample to the claim as stated): with
`windowUpdatePeriod = 10` and the first deadline at `10`, a window update
performed by `callback` at `t = 15` leaves the next deadline at `20`, the
accumulated multiple, not at `t + windowUpdatePeriod = 25`. -/
theorem window_deadline_not_reanchored :
    (callback id
        (mkEnsembleHarmonic
          { nbins := 1, binWidth := 1, min_dist := 0, max_dist := 10,
            experimental := [0], nsamples := 1, sample_period := 10,
            nwindows := 1, window_update_period := 10, K := 1,
            sigma := 1 })
        ⟨1, 0, 0⟩ ⟨0, 0, 0⟩ 15).state.nextWindowUpdateTime = 20 ∧
    (20 : ℝ) ≠ 15 + 10 := by
  constructor
  · unfold callback sampleStep windowStep mkEnsembleHarmonic
    norm_num
  · norm_num

/-- Claim C2 witness: instantiation of the amended deadline theorem at a
concrete state and time. -/
theorem window_deadline_accumulated_witness :
    (mkEnsembleHarmonic
        { nbins := 1, binWidth := 1, min_dist := 0, max_dist := 10,
          experimental := [0], nsamples := 1, sample_period := 10,
          nwindows := 1, window_update_period := 10, K := 1,
          sigma := 1 }).nextWindowUpdateTime ≤ 15 ∧
    ((callback id
        (mkEnsembleHarmonic
          { nbins := 1, binWidth := 1, min_dist := 0, max_dist := 10,
            experimental := [0], nsamples := 1, sample_period := 10,
            nwindows := 1, window_update_period := 10, K := 1,
            sigma := 1 })
        ⟨1, 0, 0⟩ ⟨0, 0, 0⟩ 15).state.nextWindowUpdateTime
      = (mkEnsembleHarmonic
          { nbins := 1, binWidth := 1, min_dist := 0, max_dist := 10,
            experimental := [0], nsamples := 1, sample_period := 10,
            nwindows := 1, window_update_period := 10, K := 1,
            sigma := 1 }).nextWindowUpdateTime + 10) :=
  ⟨by norm_num [mkEnsembleHarmonic],
    (window_deadline_accumulated id
      (mkEnsembleHarmonic
        { nbins := 1, binWidth := 1, min_dist := 0, max_dist := 10,
          experimental := [0], nsamples := 1, sample_period := 10,
          nwindows := 1, window_update_period := 10, K := 1,
          sigma := 1 })
      ⟨1, 0, 0⟩ ⟨0, 0, 0⟩ 15 (by norm_num [mkEnsembleHarmonic])).1⟩

/-- Claim C10: one `callback` invocation records at most one sample; when
`t` has passed the sample deadline — by however many multiples of the
period — exactly one slot is filled and the sample deadline advances by
exactly one `samplePeriod`; consequently (concrete run, `nSamples = 2`,
`samplePeriod = 1`, `windowUpdatePeriod = 2`, single invocation at
`t = 2`) a window can complete having gathered fewer than `nSamples`
samples. -/
theorem single_sample_per_invocation
    (reduceFn : List ℝ → List ℝ) (s : EnsembleHarmonic) (v v0 : Vec3)
    (R t : ℝ) (h : s.nextSampleTime ≤ t) :
    (callback reduceFn s v v0 t).samplesRecorded ≤ 1 ∧
    (sampleStep s R t).1.currentSample = s.currentSample + 1 ∧
    (sampleStep s R t).1.nextSampleTime
        = s.nextSampleTime + s.samplePeriod ∧
    (1 < (mkEnsembleHarmonic
        { nbins := 1, binWidth := 1, min_dist := 0, max_dist := 10,
          experimental := [0], nsamples := 2, sample_period := 1,
          nwindows := 1, window_update_period := 2, K := 1,
          sigma := 1 }).nSamples ∧
      (callback id
        (mkEnsembleHarmonic
          { nbins := 1, binWidth := 1, min_dist := 0, max_dist := 10,
            experimental := [0], nsamples := 2, sample_period := 1,
            nwindows := 1, window_update_period := 2, K := 1,
            sigma := 1 }) ⟨2, 0, 0⟩ ⟨0, 0, 0⟩ 2).samplesRecorded = 1 ∧
      (callback id
        (mkEnsembleHarmonic
          { nbins := 1, binWidth := 1, min_dist := 0, max_dist := 10,
            experimental := [0], nsamples := 2, sample_period := 1,
            nwindows := 1, window_update_period := 2, K := 1,
            sigma := 1 }) ⟨2, 0, 0⟩ ⟨0, 0, 0⟩ 2).state.currentWindow = 1) := by
  refine ⟨?_, ?_, ?_, ?_, ?_, ?_⟩
  · unfold callback sampleStep
    split <;> simp
  · unfold sampleStep
    rw [if_pos h]
  · unfold sampleStep
    rw [if_pos h]
  · norm_num [mkEnsembleHarmonic]
  · unfold callback sampleStep mkEnsembleHarmonic
    norm_num
  · unfold callback sampleStep windowStep mkEnsembleHarmonic
    norm_num

/-- Claim C10 witness: instantiation at a concrete state whose sample
deadline (1) lies many sample periods behind the invocation time (100). -/
theorem single_sample_per_invocation_witness :
    (mkEnsembleHarmonic
        { nbins := 1, binWidth := 1, min_dist := 0, max_dist := 10,
          experimental := [0], nsamples := 2, sample_period := 1,
          nwindows := 1, window_update_period := 2, K := 1,
          sigma := 1 }).nextSampleTime ≤ 100 ∧
    (sampleStep
        (mkEnsembleHarmonic
          { nbins := 1, binWidth := 1, min_dist := 0, max_dist := 10,
            experimental := [0], nsamples := 2, sample_period := 1,
            nwindows := 1, window_update_period := 2, K := 1,
            sigma := 1 }) 3 100).1.currentSample
      = (mkEnsembleHarmonic
          { nbins := 1, binWidth := 1, min_dist := 0, max_dist := 10,
            experimental := [0], nsamples := 2, sample_period := 1,
            nwindows := 1, window_update_period := 2, K := 1,
            sigma := 1 }).currentSample + 1 :=
  ⟨by norm_num [mkEnsembleHarmonic],
    (single_sample_per_invocation id
      (mkEnsembleHarmonic
        { nbins := 1, binWidth := 1, min_dist := 0, max_dist := 10,
          experimental := [0], nsamples := 2, sample_period := 1,
          nwindows := 1, window_update_period := 2, K := 1,
          sigma := 1 }) ⟨1, 0, 0⟩ ⟨0, 0, 0⟩ 3 100
      (by norm_num [mkEnsembleHarmonic])).2.1⟩

theorem callback_currentWindow_eq_add_reduceLog
    (reduceFn : List ℝ → List ℝ) (s : EnsembleHarmonic) (v v0 : Vec3)
    (t : ℝ) :
    (callback reduceFn s v v0 t).state.currentWindow
      = s.currentWindow + (callback reduceFn s v v0 t).reduceLog.length := by
  obtain ⟨-, -, -, -, -, -, h7, -⟩ :=
    sampleStep_preserves s (Real.sqrt (dotV (v - v0) (v - v0))) t
  unfold callback windowStep
  dsimp only
  split <;> simp [h7]

theorem runReduceCount_eq_currentWindow_sub
    (inputs : List CallbackInput) (s : EnsembleHarmonic) :
    runReduceCount s inputs + s.currentWindow
      = (runCallbacks s inputs).currentWindow := by
  induction inputs generalizing s with
  | nil => simp [runReduceCount, runCallbacks]
  | cons i rest ih =>
    unfold runReduceCount runCallbacks
    rw [← ih, callback_currentWindow_eq_add_reduceLog]
    omega

/-- Claim C8: a single `callback` invocation calls the ensemble reduce
exactly once when `t` has reached the window deadline and zero times
otherwise; over any run started from a freshly constructed restraint, the
total number of reduce calls equals the number of completed windows (the
final `currentWindow` counter). -/
theorem reduce_called_once_per_window
    (reduceFn : List ℝ → List ℝ) (s : EnsembleHarmonic) (v v0 : Vec3)
    (t : ℝ) :
    ((callback reduceFn s v v0 t).reduceLog.length
        = if s.nextWindowUpdateTime ≤ t then 1 else 0) ∧
    ∀ (p : EnsembleParams) (inputs : List CallbackInput),
      runReduceCount (mkEnsembleHarmonic p) inputs
        = (runCallbacks (mkEnsembleHarmonic p) inputs).currentWindow := by
  constructor
  · obtain ⟨h1, -⟩ :=
      sampleStep_preserves s (Real.sqrt (dotV (v - v0) (v - v0))) t
    unfold callback windowStep
    simp only [h1]
    split <;> simp
  · intro p inputs
    have h := runReduceCount_eq_currentWindow_sub inputs (mkEnsembleHarmonic p)
    simpa [mkEnsembleHarmonic] using h

theorem getD_range_map (f : ℕ → ℝ) (n i : ℕ) (h : i < n) :
    ((List.range n).map f).getD i 0 = f i := by
  rw [List.getD_eq_getElem?_getD, List.getElem?_map, List.getElem?_range h]
  rfl

theorem sum_map_div (l : List (List ℝ)) (g : List ℝ → ℝ) (c : ℝ) :
    (l.map fun w => g w / c).sum = (l.map g).sum / c := by
  induction l with
  | nil => simp
  | cons w rest ih => simp [ih, add_div]

theorem recomputeWorking_getD (nBins : ℕ) (e : List ℝ)
    (ws : List (List ℝ)) (i : ℕ) (h : i < nBins) :
    (recomputeWorking nBins e ws).getD i 0
      = (ws.map fun w => w.getD i 0 - e.getD i 0).sum / (ws.length : ℝ) := by
  unfold recomputeWorking
  rw [getD_range_map _ _ _ h, sum_map_div]

/-- Claim C6: after every window update, the working histogram equals
`recomputeWorking` applied to exactly the current queue contents and the
experimental histogram — a from-scratch recomputation, not an incremental
update of the prior working histogram — and each bin is the mean over the
queue entries of (entry bin minus experimental bin). -/
theorem working_histogram_recomputed_mean
    (reduceFn : List ℝ → List ℝ) (s : EnsembleHarmonic) (v v0 : Vec3)
    (t : ℝ) (h : s.nextWindowUpdateTime ≤ t) :
    (callback reduceFn s v v0 t).state.histogram
        = recomputeWorking s.nBins s.experimental
            (callback reduceFn s v v0 t).state.windows ∧
    ∀ i, i < s.nBins →
      (callback reduceFn s v v0 t).state.histogram.getD i 0
        = ((callback reduceFn s v v0 t).state.windows.map fun w =>
              w.getD i 0 - s.experimental.getD i 0).sum
            / ((callback reduceFn s v v0 t).state.windows.length : ℝ) := by
  obtain ⟨h1, -, h3, h4, -⟩ :=
    sampleStep_preserves s (Real.sqrt (dotV (v - v0) (v - v0))) t
  have key : (callback reduceFn s v v0 t).state.histogram
      = recomputeWorking s.nBins s.experimental
          (callback reduceFn s v v0 t).state.windows := by
    unfold callback windowStep
    dsimp only
    simp only [h1]
    rw [if_pos h]
    simp only [h3, h4]
  refine ⟨key, fun i hi => ?_⟩
  rw [key, recomputeWorking_getD _ _ _ i hi]

/-- Claim C6 witness: instantiation at a concrete freshly constructed
restraint whose first window deadline (1) has been reached at `t = 1`. -/
theorem working_histogram_recomputed_mean_witness :
    (mkEnsembleHarmonic
        { nbins := 1, binWidth := 1, min_dist := 0, max_dist := 10,
          experimental := [0], nsamples := 1, sample_period := 1,
          nwindows := 1, window_update_period := 1, K := 1,
          sigma := 1 }).nextWindowUpdateTime ≤ 1 ∧
    (callback id
        (mkEnsembleHarmonic
          { nbins := 1, binWidth := 1, min_dist := 0, max_dist := 10,
            experimental := [0], nsamples := 1, sample_period := 1,
            nwindows := 1, window_update_period := 1, K := 1,
            sigma := 1 }) ⟨1, 0, 0⟩ ⟨0, 0, 0⟩ 1).state.histogram
      = recomputeWorking
          (mkEnsembleHarmonic
            { nbins := 1, binWidth := 1, min_dist := 0, max_dist := 10,
              experimental := [0], nsamples := 1, sample_period := 1,
              nwindows := 1, window_update_period := 1, K := 1,
              sigma := 1 }).nBins
          (mkEnsembleHarmonic
            { nbins := 1, binWidth := 1, min_dist := 0, max_dist := 10,
              experimental := [0], nsamples := 1, sample_period := 1,
              nwindows := 1, window_update_period := 1, K := 1,
              sigma := 1 }).experimental
          (callback id
            (mkEnsembleHarmonic
              { nbins := 1, binWidth := 1, min_dist := 0, max_dist := 10,
                experimental := [0], nsamples := 1, sample_period := 1,
                nwindows := 1, window_update_period := 1, K := 1,
                sigma := 1 }) ⟨1, 0, 0⟩ ⟨0, 0, 0⟩ 1).state.windows :=
  ⟨by norm_num [mkEnsembleHarmonic],
    (working_histogram_recomputed_mean id
      (mkEnsembleHarmonic
        { nbins := 1, binWidth := 1, min_dist := 0, max_dist := 10,
          experimental := [0], nsamples := 1, sample_period := 1,
          nwindows := 1, window_update_period := 1, K := 1,
          sigma := 1 }) ⟨1, 0, 0⟩ ⟨0, 0, 0⟩ 1
      (by norm_num [mkEnsembleHarmonic])).1⟩

theorem callback_nWindows_eq (reduceFn : List ℝ → List ℝ)
    (s : EnsembleHarmonic) (v v0 : Vec3) (t : ℝ) :
    (callback reduceFn s v v0 t).state.nWindows = s.nWindows := by
  obtain ⟨-, -, -, -, -, -, -, h8, -⟩ :=
    sampleStep_preserves s (Real.sqrt (dotV (v - v0) (v - v0))) t
  unfold callback windowStep
  dsimp only
  split <;> simp [h8]

theorem callback_windows_length_le (reduceFn : List ℝ → List ℝ)
    (s : EnsembleHarmonic) (v v0 : Vec3) (t : ℝ)
    (hcap : s.windows.length ≤ s.nWindows) (hpos : 1 ≤ s.nWindows) :
    (callback reduceFn s v v0 t).state.windows.length ≤ s.nWindows := by
  obtain ⟨-, h2, -, -, -, -, -, h8, -⟩ :=
    sampleStep_preserves s (Real.sqrt (dotV (v - v0) (v - v0))) t
  unfold callback windowStep
  dsimp only
  split
  · split
    · rename_i hfull
      rw [h2, h8] at hfull
      simp only [List.length_append, List.length_drop, List.length_cons,
        List.length_nil, h2]
      omega
    · rename_i hfull
      rw [h2, h8] at hfull
      simp only [List.length_append, List.length_cons, List.length_nil, h2]
      omega
  · simpa [h2] using hcap

theorem runCallbacks_windows_invariant (inputs : List CallbackInput)
    (s : EnsembleHarmonic) (hcap : s.windows.length ≤ s.nWindows)
    (hpos : 1 ≤ s.nWindows) :
    (runCallbacks s inputs).windows.length ≤ s.nWindows := by
  induction inputs generalizing s with
  | nil => simpa [runCallbacks] using hcap
  | cons i rest ih =>
    unfold runCallbacks
    have hstep := callback_windows_length_le i.reduceFn s i.v i.v0 i.t hcap hpos
    have hn := callback_nWindows_eq i.reduceFn s i.v i.v0 i.t
    have := ih (callback i.reduceFn s i.v i.v0 i.t).state
      (by rw [hn]; exact hstep) (by rw [hn]; exact hpos)
    rwa [hn] at this

/-- Claim C7: starting from construction, every state reachable through
`callback` invocations holds at most `nWindows` window histograms; and when
a window completes while the queue is at capacity, the oldest entry is
removed and the remaining entries keep their FIFO order (they become the
front of the new queue, with the new histogram appended at the back). -/
theorem window_history_bounded_fifo
    (p : EnsembleParams) (inputs : List CallbackInput)
    (hpos : 1 ≤ p.nwindows) :
    (runCallbacks (mkEnsembleHarmonic p) inputs).windows.length ≤ p.nwindows ∧
    ∀ (reduceFn : List ℝ → List ℝ) (s : EnsembleHarmonic) (v v0 : Vec3)
      (t : ℝ), 1 ≤ s.nWindows → s.windows.length = s.nWindows →
        s.nextWindowUpdateTime ≤ t →
        (callback reduceFn s v v0 t).state.windows.dropLast
            = s.windows.drop 1 ∧
        (callback reduceFn s v v0 t).state.windows.length = s.nWindows := by
  constructor
  · have := runCallbacks_windows_invariant inputs (mkEnsembleHarmonic p)
      (by simp [mkEnsembleHarmonic]) (by simpa [mkEnsembleHarmonic] using hpos)
    simpa [mkEnsembleHarmonic] using this
  · intro reduceFn s v v0 t hn hfull h
    obtain ⟨h1, h2, -, -, -, -, -, h8, -⟩ :=
      sampleStep_preserves s (Real.sqrt (dotV (v - v0) (v - v0))) t
    unfold callback windowStep
    dsimp only
    rw [if_pos (by rw [h1]; exact h)]
    rw [if_pos (by rw [h2, h8]; exact hfull)]
    constructor
    · simp [h2]
    · simp only [List.length_append, List.length_drop, List.length_cons,
        List.length_nil, h2]
      omega

/-- Claim C7 witness: instantiation at a concrete parameter record with
`nWindows = 1` and the empty run. -/
theorem window_history_bounded_fifo_witness :
    1 ≤ (2 : ℕ) ∧
    (runCallbacks
        (mkEnsembleHarmonic
          { nbins := 1, binWidth := 1, min_dist := 0, max_dist := 10,
            experimental := [0], nsamples := 1, sample_period := 1,
            nwindows := 2, window_update_period := 1, K := 1,
            sigma := 1 }) []).windows.length ≤ 2 :=
  ⟨by norm_num,
    (window_history_bounded_fifo
      { nbins := 1, binWidth := 1, min_dist := 0, max_dist := 10,
        experimental := [0], nsamples := 1, sample_period := 1,
        nwindows := 2, window_update_period := 1, K := 1, sigma := 1 }
      [] (by norm_num)).1⟩

theorem blurToGrid_length (low binWidth sigma : ℝ) (distances grid : List ℝ) :
    (blurToGrid low binWidth sigma distances grid).length = grid.length := by
  simp [blurToGrid]

theorem sqrt_two_pi_sigma_sq (sigma : ℝ) (hσ : 0 ≤ sigma) :
    Real.sqrt (2 * Real.pi * sigma * sigma)
      = Real.sqrt (2 * Real.pi) * sigma := by
  rw [show 2 * Real.pi * sigma * sigma = (2 * Real.pi) * (sigma * sigma) by
      ring,
    Real.sqrt_mul (by positivity), Real.sqrt_mul_self hσ]

/-- Claim C5: with `sigma > 0`, every output bin of the kernel-density blur
equals the sum over all samples `d` of
`exp(-(x_i - d)^2 / (2 sigma^2)) / (N sqrt(2 pi) sigma)`; every output bin
is nonnegative; the empty sample list yields the all-zero grid; and the
output overwrites the prior grid contents — it depends on the prior grid
only through its length. -/
theorem blur_matches_kernel_density
    (low binWidth sigma : ℝ) (distances grid : List ℝ) (hσ : 0 < sigma) :
    (∀ i, i < grid.length →
      (blurToGrid low binWidth sigma distances grid).getD i 0
        = (distances.map fun d =>
            Real.exp (-(((i : ℝ) * binWidth - d) ^ 2) / (2 * sigma ^ 2))
              / ((distances.length : ℝ) * Real.sqrt (2 * Real.pi)
                  * sigma)).sum) ∧
    (∀ i, 0 ≤ (blurToGrid low binWidth sigma distances grid).getD i 0) ∧
    (distances = [] →
      blurToGrid low binWidth sigma distances grid
        = List.replicate grid.length 0) ∧
    (∀ grid2 : List ℝ, grid2.length = grid.length →
      blurToGrid low binWidth sigma distances grid2
        = blurToGrid low binWidth sigma distances grid) := by
  refine ⟨fun i hi => ?_, fun i => ?_, fun hd => ?_, fun grid2 hlen => ?_⟩
  · unfold blurToGrid
    rw [getD_range_map _ _ _ hi]
    congr 1
    apply List.map_congr_left
    intro d hd
    rw [sqrt_two_pi_sigma_sq sigma hσ.le,
      show -(((i : ℝ) * binWidth - d) * ((i : ℝ) * binWidth - d))
          * (1 / (2 * sigma * sigma))
        = -(((i : ℝ) * binWidth - d) ^ 2) / (2 * sigma ^ 2) by ring]
    ring
  · by_cases hi : i < grid.length
    · unfold blurToGrid
      rw [getD_range_map _ _ _ hi]
      apply List.sum_nonneg
      intro x hx
      simp only [List.mem_map] at hx
      obtain ⟨d, -, rfl⟩ := hx
      apply mul_nonneg
      · rw [one_div]
        exact inv_nonneg.2 (by positivity)
      · exact (Real.exp_pos _).le
    · rw [List.getD_eq_default]
      rw [blurToGrid_length]
      omega
  · subst hd
    unfold blurToGrid
    simp [List.map_const']
  · unfold blurToGrid
    rw [hlen]

/-- Claim C5 witness: instantiation at concrete blur parameters with unit
bandwidth and a single sample. -/
theorem blur_matches_kernel_density_witness :
    (0 : ℝ) < 1 ∧
    (∀ grid2 : List ℝ, grid2.length = ([0, 0] : List ℝ).length →
      blurToGrid 0 1 1 [2] grid2 = blurToGrid 0 1 1 [2] [0, 0]) :=
  ⟨by norm_num,
    (blur_matches_kernel_density 0 1 1 [2] [0, 0] (by norm_num)).2.2.2⟩

theorem blur_bin_pos (low binWidth sigma : ℝ) (hσ : 0 < sigma)
    (distances grid : List ℝ) (hd : distances ≠ []) (i : ℕ)
    (hi : i < grid.length) :
    0 < (blurToGrid low binWidth sigma distances grid).getD i 0 := by
  unfold blurToGrid
  rw [getD_range_map _ _ _ hi]
  apply List.sum_pos
  · intro x hx
    simp only [List.mem_map] at hx
    obtain ⟨d, -, rfl⟩ := hx
    have hN : 0 < (distances.length : ℝ) := by
      exact_mod_cast List.length_pos.mpr hd
    have hS : 0 < Real.sqrt (2 * Real.pi * sigma * sigma) :=
      Real.sqrt_pos.2 (by positivity)
    apply mul_pos
    · rw [one_div]
      exact inv_pos.2 (mul_pos hN hS)
    · exact Real.exp_pos _
  · simpa using hd

theorem callback_window_update_shape
    (reduceFn : List ℝ → List ℝ) (s : EnsembleHarmonic) (v v0 : Vec3)
    (t : ℝ) (h : s.nextWindowUpdateTime ≤ t) :
    (callback reduceFn s v v0 t).state.windows.getLast?
        = some (blurToGrid 0 s.binWidth s.sigma
            (sampleStep s (Real.sqrt (dotV (v - v0) (v - v0)))
              t).1.distanceSamples
            (List.replicate s.nBins 0)) ∧
    (callback reduceFn s v v0 t).reduceLog
        = [(blurToGrid 0 s.binWidth s.sigma
            (sampleStep s (Real.sqrt (dotV (v - v0) (v - v0)))
              t).1.distanceSamples
            (List.replicate s.nBins 0),
          reduceFn (blurToGrid 0 s.binWidth s.sigma
            (sampleStep s (Real.sqrt (dotV (v - v0) (v - v0)))
              t).1.distanceSamples
            (List.replicate s.nBins 0)))] := by
  obtain ⟨h1, -, h3, -, -, -, -, -, -, h10, h11⟩ :=
    sampleStep_preserves s (Real.sqrt (dotV (v - v0) (v - v0))) t
  unfold callback windowStep
  dsimp only
  rw [if_pos (by rw [h1]; exact h)]
  constructor
  · simp [h3, h10, h11, List.getLast?_concat]
  · simp [h3, h10, h11]

/-- Probe scenario for the window-push claim: a fresh single-bin restraint,
one `callback` at the first window deadline, with a reduce modelling a
two-replica sum (every bin doubled). -/
noncomputable def rawPushProbe : CallbackOut :=
  callback (fun l => l.map fun x => 2 * x)
    (mkEnsembleHarmonic
      { nbins := 1, binWidth := 1, min_dist := 0, max_dist := 10,
        experimental := [0], nsamples := 1, sample_period := 1,
        nwindows := 1, window_update_period := 1, K := 1, sigma := 1 })
    ⟨2, 0, 0⟩ ⟨0, 0, 0⟩ 1

/-- Claim C1 (divergence at the failing input): after a completed window
update the newest window-history entry equals the send buffer of the logged
reduce call — the raw local kernel-density histogram — and differs from the
result of that reduce call, because the receive buffer is discarded. -/
theorem window_push_keeps_raw_not_reduced :
    rawPushProbe.reduceLog.length = 1 ∧
    rawPushProbe.state.windows.getLast?
        = some (rawPushProbe.reduceLog.headD ([], [])).1 ∧
    rawPushProbe.state.windows.getLast?
        ≠ some (rawPushProbe.reduceLog.headD ([], [])).2 := by
  obtain ⟨hlast, hlog⟩ := callback_window_update_shape
    (fun l => l.map fun x => 2 * x)
    (mkEnsembleHarmonic
      { nbins := 1, binWidth := 1, min_dist := 0, max_dist := 10,
        experimental := [0], nsamples := 1, sample_period := 1,
        nwindows := 1, window_update_period := 1, K := 1, sigma := 1 })
    ⟨2, 0, 0⟩ ⟨0, 0, 0⟩ 1 (by norm_num [mkEnsembleHarmonic])
  have hlen : (blurToGrid 0
      (mkEnsembleHarmonic
        { nbins := 1, binWidth := 1, min_dist := 0, max_dist := 10,
          experimental := [0], nsamples := 1, sample_period := 1,
          nwindows := 1, window_update_period := 1, K := 1,
          sigma := 1 }).binWidth
      (mkEnsembleHarmonic
        { nbins := 1, binWidth := 1, min_dist := 0, max_dist := 10,
          experimental := [0], nsamples := 1, sample_period := 1,
          nwindows := 1, window_update_period := 1, K := 1,
          sigma := 1 }).sigma
      (sampleStep
        (mkEnsembleHarmonic
          { nbins := 1, binWidth := 1, min_dist := 0, max_dist := 10,
            experimental := [0], nsamples := 1, sample_period := 1,
            nwindows := 1, window_update_period := 1, K := 1, sigma := 1 })
        (Real.sqrt
          (dotV ((⟨2, 0, 0⟩ : Vec3) - ⟨0, 0, 0⟩)
            ((⟨2, 0, 0⟩ : Vec3) - ⟨0, 0, 0⟩))) 1).1.distanceSamples
      (List.replicate
        (mkEnsembleHarmonic
          { nbins := 1, binWidth := 1, min_dist := 0, max_dist := 10,
            experimental := [0], nsamples := 1, sample_period := 1,
            nwindows := 1, window_update_period := 1, K := 1,
            sigma := 1 }).nBins 0)).length = 1 := by
    rw [blurToGrid_length]
    simp [mkEnsembleHarmonic]
  have hpos := blur_bin_pos 0
    (mkEnsembleHarmonic
      { nbins := 1, binWidth := 1, min_dist := 0, max_dist := 10,
        experimental := [0], nsamples := 1, sample_period := 1,
        nwindows := 1, window_update_period := 1, K := 1,
        sigma := 1 }).binWidth
    (mkEnsembleHarmonic
      { nbins := 1, binWidth := 1, min_dist := 0, max_dist := 10,
        experimental := [0], nsamples := 1, sample_period := 1,
        nwindows := 1, window_update_period := 1, K := 1,
        sigma := 1 }).sigma
    (by norm_num [mkEnsembleHarmonic])
    (sampleStep
      (mkEnsembleHarmonic
        { nbins := 1, binWidth := 1, min_dist := 0, max_dist := 10,
          experimental := [0], nsamples := 1, sample_period := 1,
          nwindows := 1, window_update_period := 1, K := 1, sigma := 1 })
      (Real.sqrt
        (dotV ((⟨2, 0, 0⟩ : Vec3) - ⟨0, 0, 0⟩)
          ((⟨2, 0, 0⟩ : Vec3) - ⟨0, 0, 0⟩))) 1).1.distanceSamples
    (List.replicate
      (mkEnsembleHarmonic
        { nbins := 1, binWidth := 1, min_dist := 0, max_dist := 10,
          experimental := [0], nsamples := 1, sample_period := 1,
          nwindows := 1, window_update_period := 1, K := 1,
          sigma := 1 }).nBins 0)
    (by
      unfold sampleStep mkEnsembleHarmonic
      norm_num)
    0 (by simp [mkEnsembleHarmonic])
  obtain ⟨a, ha⟩ := List.length_eq_one.mp hlen
  rw [ha] at hlast hpos
  have hapos : 0 < a := by simpa using hpos
  refine ⟨?_, ?_, ?_⟩
  · unfold rawPushProbe
    rw [hlog]
    simp
  · unfold rawPushProbe
    rw [hlast, hlog, ha]
    simp
  · unfold rawPushProbe
    rw [hlast, hlog, ha]
    intro hcon
    simp only [List.headD_cons] at hcon
    have hsome : (some [a] : Option (List ℝ)) = some [2 * a] := by
      simpa using hcon
    have h2 := congrArg (fun o => ((o.getD []).getD 0 0 : ℝ)) hsome
    simp at h2
    linarith

theorem dotV_self_pos (u : Vec3) (h : u ≠ Vec3.mk 0 0 0) : 0 < dotV u u := by
  obtain ⟨x, y, z⟩ := u
  simp only [ne_eq, Vec3.mk.injEq] at h
  show 0 < x * x + y * y + z * z
  by_contra hle
  push_neg at hle
  have hx : x = 0 := by
    nlinarith [mul_self_nonneg x, mul_self_nonneg y, mul_self_nonneg z]
  have hy : y = 0 := by
    nlinarith [mul_self_nonneg x, mul_self_nonneg y, mul_self_nonneg z]
  have hz : z = 0 := by
    nlinarith [mul_self_nonneg x, mul_self_nonneg y, mul_self_nonneg z]
  exact h ⟨hx, hy, hz⟩

theorem specForceMag_eq_codeMag (s : EnsembleHarmonic) (R : ℝ)
    (hσ : 0 < s.sigma) :
    specForceMag s R
      = if R > s.maxDist then s.k * (s.maxDist - R)
        else if R < s.minDist then -s.k * (s.minDist - R)
        else
          -s.k *
            ((List.range s.histogram.length).map fun n =>
              s.histogram.getD n 0 * ((n : ℝ) * s.binWidth - R) /
                  (Real.sqrt (2 * Real.pi) * s.sigma ^ 3) *
                Real.exp
                  (-0.5 * (((n : ℝ) * s.binWidth - R) / s.sigma) ^ 2)).sum := by
  unfold specForceMag specGaussian
  split_ifs with h1 h2
  · rfl
  · rfl
  · congr 1
    congr 1
    apply List.map_congr_left
    intro n hn
    have hσne : s.sigma ≠ 0 := ne_of_gt hσ
    have harg : (-0.5 * (((n : ℝ) * s.binWidth - R) / s.sigma) ^ 2 : ℝ)
        = -(((n : ℝ) * s.binWidth - R) ^ 2) / (2 * s.sigma ^ 2) := by
      rw [div_pow]
      rw [show (-0.5 : ℝ) = -(1 / 2) by norm_num]
      field_simp
    rw [harg]
    ring

/-- Claim C4: for distinct site positions and positive `sigma`, `calculate`
returns zero energy and force vector `(mag / R) • (site_a - site_b)` where
`mag` is exactly the specification's piecewise law: `k*(maxDist - R)` when
`R > maxDist`, `-k*(minDist - R)` when `R < minDist`, and otherwise the
histogram-weighted Gaussian sum
`-k * sum_n hist[n] * ((n*binWidth - R)/sigma^2) * Gaussian(n*binWidth - R; sigma)`. -/
theorem calculate_matches_spec_force_law
    (s : EnsembleHarmonic) (v v0 : Vec3) (t : ℝ)
    (hv : v - v0 ≠ Vec3.mk 0 0 0) (hσ : 0 < s.sigma) :
    calculate s v v0 t
      = { force := (specForceMag s (vnorm (v - v0)) / vnorm (v - v0))
            • (v - v0),
          energy := 0 } := by
  have hpos := dotV_self_pos (v - v0) hv
  have hRne : Real.sqrt (dotV (v - v0) (v - v0)) ≠ 0 :=
    ne_of_gt (Real.sqrt_pos.2 hpos)
  unfold calculate vnorm
  dsimp only
  rw [if_pos hRne, specForceMag_eq_codeMag s _ hσ]

/-- Claim C4 witness: instantiation at a fresh restraint with unit spring
constant and `sigma = 1`, sites one unit apart. -/
theorem calculate_matches_spec_force_law_witness :
    ((⟨1, 0, 0⟩ : Vec3) - ⟨0, 0, 0⟩ ≠ Vec3.mk 0 0 0) ∧
    (0 : ℝ) <
      (mkEnsembleHarmonic
        { nbins := 2, binWidth := 1, min_dist := 0, max_dist := 10,
          experimental := [0, 0], nsamples := 1, sample_period := 1,
          nwindows := 1, window_update_period := 1, K := 1,
          sigma := 1 }).sigma ∧
    calculate
        (mkEnsembleHarmonic
          { nbins := 2, binWidth := 1, min_dist := 0, max_dist := 10,
            experimental := [0, 0], nsamples := 1, sample_period := 1,
            nwindows := 1, window_update_period := 1, K := 1,
            sigma := 1 }) ⟨1, 0, 0⟩ ⟨0, 0, 0⟩ 0
      = { force :=
            (specForceMag
                (mkEnsembleHarmonic
                  { nbins := 2, binWidth := 1, min_dist := 0,
                    max_dist := 10, experimental := [0, 0], nsamples := 1,
                    sample_period := 1, nwindows := 1,
                    window_update_period := 1, K := 1, sigma := 1 })
                (vnorm ((⟨1, 0, 0⟩ : Vec3) - ⟨0, 0, 0⟩))
              / vnorm ((⟨1, 0, 0⟩ : Vec3) - ⟨0, 0, 0⟩))
            • ((⟨1, 0, 0⟩ : Vec3) - ⟨0, 0, 0⟩),
          energy := 0 } :=
  ⟨by
    show Vec3.mk (1 - 0) (0 - 0) (0 - 0) ≠ Vec3.mk 0 0 0
    simp [Vec3.mk.injEq],
  by norm_num [mkEnsembleHarmonic],
  calculate_matches_spec_force_law
    (mkEnsembleHarmonic
      { nbins := 2, binWidth := 1, min_dist := 0, max_dist := 10,
        experimental := [0, 0], nsamples := 1, sample_period := 1,
        nwindows := 1, window_update_period := 1, K := 1, sigma := 1 })
    ⟨1, 0, 0⟩ ⟨0, 0, 0⟩ 0
    (by
      show Vec3.mk (1 - 0) (0 - 0) (0 - 0) ≠ Vec3.mk 0 0 0
      simp [Vec3.mk.injEq])
    (by norm_num [mkEnsembleHarmonic])⟩

/-- Claim C3 (counterexample to the claim as stated): a parameter record
invalid in every way the claim lists — experimental histogram length 0 for
`nBins = 2`, negative sample period, window period inconsistent with
`nSamples * samplePeriod` — is not rejected: construction produces a
restraint instance carrying exactly these values. -/
theorem invalid_config_not_rejected :
    specInvalidConfig
      { nbins := 2, binWidth := 1, min_dist := 0, max_dist := 1,
        experimental := [], nsamples := 1, sample_period := -1,
        nwindows := 1, window_update_period := 5, K := 1, sigma := 1 } ∧
    (mkEnsembleHarmonic
      { nbins := 2, binWidth := 1, min_dist := 0, max_dist := 1,
        experimental := [], nsamples := 1, sample_period := -1,
        nwindows := 1, window_update_period := 5, K := 1,
        sigma := 1 }).nBins = 2 ∧
    (mkEnsembleHarmonic
      { nbins := 2, binWidth := 1, min_dist := 0, max_dist := 1,
        experimental := [], nsamples := 1, sample_period := -1,
        nwindows := 1, window_update_period := 5, K := 1,
        sigma := 1 }).samplePeriod = -1 ∧
    (mkEnsembleHarmonic
      { nbins := 2, binWidth := 1, min_dist := 0, max_dist := 1,
        experimental := [], nsamples := 1, sample_period := -1,
        nwindows := 1, window_update_period := 5, K := 1,
        sigma := 1 }).experimental = [] ∧
    (mkEnsembleHarmonic
      { nbins := 2, binWidth := 1, min_dist := 0, max_dist := 1,
        experimental := [], nsamples := 1, sample_period := -1,
        nwindows := 1, window_update_period := 5, K := 1,
        sigma := 1 }).windowUpdatePeriod = 5 :=
  ⟨Or.inl (by simp), rfl, rfl, rfl, rfl⟩

/-- Claim C3 (amended): the constructor performs no validation — for every
invalid parameter record an `EnsembleHarmonic` instance is still produced,
with the configuration fields taken verbatim from the record and the
scheduling state initialized from them. -/
theorem constructor_accepts_invalid_config
    (p : EnsembleParams) (h : specInvalidConfig p) :
    (mkEnsembleHarmonic p).nBins = p.nbins ∧
    (mkEnsembleHarmonic p).experimental = p.experimental ∧
    (mkEnsembleHarmonic p).samplePeriod = p.sample_period ∧
    (mkEnsembleHarmonic p).windowUpdatePeriod = p.window_update_period ∧
    (mkEnsembleHarmonic p).nSamples = p.nsamples ∧
    (mkEnsembleHarmonic p).nextSampleTime = p.sample_period ∧
    (mkEnsembleHarmonic p).nextWindowUpdateTime = p.window_update_period ∧
    (mkEnsembleHarmonic p).windows = [] ∧
    (mkEnsembleHarmonic p).currentSample = 0 :=
  ⟨rfl, rfl, rfl, rfl, rfl, rfl, rfl, rfl, rfl⟩

/-- Claim C3 witness: the no-validation theorem applied to a concretely
invalid record (mismatched experimental length and negative sample
period). -/
theorem constructor_accepts_invalid_config_witness :
    specInvalidConfig
      { nbins := 3, binWidth := 1, min_dist := 0, max_dist := 1,
        experimental := [0], nsamples := 2, sample_period := -2,
        nwindows := 1, window_update_period := 7, K := 1, sigma := 1 } ∧
    (mkEnsembleHarmonic
      { nbins := 3, binWidth := 1, min_dist := 0, max_dist := 1,
        experimental := [0], nsamples := 2, sample_period := -2,
        nwindows := 1, window_update_period := 7, K := 1,
        sigma := 1 }).nBins = 3 :=
  ⟨Or.inl (by simp),
    (constructor_accepts_invalid_config
      { nbins := 3, binWidth := 1, min_dist := 0, max_dist := 1,
        experimental := [0], nsamples := 2, sample_period := -2,
        nwindows := 1, window_update_period := 7, K := 1, sigma := 1 }
      (Or.inl (by simp))).1⟩

/-- Claim C9: when the two site positions coincide exactly, `calculate`
returns the zero force vector (and zero energy), for every histogram content
and every time; the degeneracy is absorbed locally, not reported as an
error. -/
theorem calculate_zero_force_at_zero_separation
    (s : EnsembleHarmonic) (v : Vec3) (t : ℝ) :
    calculate s v v t = { force := ⟨0, 0, 0⟩, energy := 0 } := by
  have hsub : v - v = Vec3.mk 0 0 0 := by
    show Vec3.mk (v.x - v.x) (v.y - v.y) (v.z - v.z) = Vec3.mk 0 0 0
    simp
  simp only [calculate, hsub]
  have hdot : dotV (Vec3.mk 0 0 0) (Vec3.mk 0 0 0) = 0 := by
    simp [dotV]
  rw [hdot, Real.sqrt_zero]
  simp
